import Mathlib

/-!
Shallow embedding of the Jellyfin catalog core (`jellyork_catalog.py`):
the descriptor parser, artwork resolver, season aggregator, library
scanner and sort engine, together with proofs checking the
natural-language specification against this embedding.

Python strings are modelled as Lean `String` (a list of characters);
`str.lower`/`upper`/`capitalize` are modelled on the ASCII range, which
covers every string the program itself introduces.  The file system is
modelled explicitly: a directory is a list of entry names in iteration
order, and `pathlib` globbing over a nonexistent directory yields the
empty list (CPython's selector returns an empty iterator when the parent
is not a directory, and permission errors are swallowed), so no file
enumeration in the scanner can raise.
-/

/-! ## Python string primitives -/

/-- Whitespace as recognised by `str.strip` / `str.split` (ASCII range). -/
def pyIsSpace (c : Char) : Bool :=
  c = ' ' || c = '\t' || c = '\n' || c = '\x0d' || c = '\x0b' || c = '\x0c'

/-- Model of `str.lower` (ASCII). -/
def pyLower (s : String) : String :=
  ⟨s.data.map Char.toLower⟩

/-- Model of `str.upper` (ASCII). -/
def pyUpper (s : String) : String :=
  ⟨s.data.map Char.toUpper⟩

/-- Model of `str.strip()`: drop leading and trailing whitespace. -/
def pyStrip (s : String) : String :=
  ⟨((s.data.dropWhile pyIsSpace).reverse.dropWhile pyIsSpace).reverse⟩

/-- Model of `str.capitalize()`: first character upper-cased, rest lower-cased. -/
def pyCapitalize (s : String) : String :=
  match s.data with
  | [] => ""
  | c :: cs => ⟨Char.toUpper c :: cs.map Char.toLower⟩

/-- Worker for `str.split()` with no separator: split on whitespace runs,
dropping empty words.  The accumulator holds the current word reversed. -/
def wordsAux : List Char → List Char → List String
  | [], [] => []
  | [], acc => [⟨acc.reverse⟩]
  | c :: cs, acc =>
    if pyIsSpace c then
      match acc with
      | [] => wordsAux cs []
      | _ => ⟨acc.reverse⟩ :: wordsAux cs []
    else wordsAux cs (c :: acc)

/-- Model of `str.split()` (no argument form). -/
def pySplit (s : String) : List String :=
  wordsAux s.data []

/-- Model of `s.startswith(pre)`. -/
def strStarts (s pre : String) : Bool :=
  pre.data.isPrefixOf s.data

/-- Model of `s.endswith(suf)`. -/
def strEnds (s suf : String) : Bool :=
  suf.data.isSuffixOf s.data

/-- Lexicographic strict comparison of character lists by code point,
Python's `<` on strings. -/
def lexLt : List Char → List Char → Bool
  | [], [] => false
  | [], _ :: _ => true
  | _ :: _, [] => false
  | a :: as, b :: bs =>
    if a < b then true else if b < a then false else lexLt as bs

/-- Python `a < b` on strings. -/
def pyStrLt (a b : String) : Bool :=
  lexLt a.data b.data

/-- Python `a <= b` on strings (the negation of the reversed strict order). -/
def pyStrLe (a b : String) : Bool :=
  !(pyStrLt b a)

/-- Python `x or y` on two optional strings: the first operand wins unless
it is `None` or the empty string (falsy). -/
def pyOrOpt (a b : Option String) : Option String :=
  match a with
  | some s => if s = "" then b else some s
  | none => b

/-- Python `x or d` where `d` is a plain string default. -/
def pyOrStr (a : Option String) (d : String) : String :=
  match a with
  | some s => if s = "" then d else s
  | none => d

/-! ## XML element model (xml.etree.ElementTree) -/

/-- A parsed XML element: tag name, optional text, child elements in
document order. -/
inductive Elem where
  | mk (tag : String) (text : Option String) (children : List Elem)

/-- Tag name of an element. -/
def Elem.tag : Elem → String
  | .mk t _ _ => t

/-- Text content of an element (`None` when absent). -/
def Elem.text : Elem → Option String
  | .mk _ t _ => t

/-- Child elements in document order. -/
def Elem.children : Elem → List Elem
  | .mk _ _ c => c

/-- Model of `root.find(tag)`: first direct child with the given tag. -/
def Elem.findChild (e : Elem) (t : String) : Option Elem :=
  e.children.find? (fun c => c.tag = t)

/-- Model of `root.findall(tag)`: all direct children with the given tag,
in document order. -/
def Elem.findAll (e : Elem) (t : String) : List Elem :=
  e.children.filter (fun c => c.tag = t)

/-- `JellyfinScanner._get_text`: text of the first child with the given
tag, stripped; `None` when the element is missing or its text is falsy.
Note that whitespace-only text is truthy in Python, so the result may be
`some ""`. -/
def get_text (root : Elem) (tag : String) : Option String :=
  match root.findChild tag with
  | none => none
  | some e =>
    match e.text with
    | none => none
    | some s => if s = "" then none else some (pyStrip s)

/-! ## Language normalizer (`_convert_language_code`) -/

/-- The fixed language table of `_convert_language_code`, in source order. -/
def language_map : List (String × String) :=
  [("ger", "German"), ("deu", "German"), ("de", "German"),
   ("eng", "English"), ("en", "English"),
   ("fra", "French"), ("fre", "French"), ("fr", "French"),
   ("spa", "Spanish"), ("es", "Spanish"),
   ("ita", "Italian"), ("it", "Italian"),
   ("jpn", "Japanese"), ("ja", "Japanese"),
   ("rus", "Russian"), ("ru", "Russian"),
   ("chi", "Chinese"), ("zh", "Chinese"),
   ("por", "Portuguese"), ("pt", "Portuguese"),
   ("pol", "Polish"), ("pl", "Polish"),
   ("tur", "Turkish"), ("tr", "Turkish"),
   ("ara", "Arabic"), ("ar", "Arabic")]

/-- `JellyfinScanner._convert_language_code`: look the lower-cased code up
in the table, falling back to `code.capitalize()`. -/
def convert_language_code (code : String) : String :=
  match language_map.find? (fun p => p.1 = pyLower code) with
  | some p => p.2
  | none => pyCapitalize code

/-! ## Track extraction (`_extract_audio_tracks`, `_extract_subtitle_tracks`) -/

/-- The `parts` list built for one `audio` element inside the loop of
`_extract_audio_tracks`: language (normalized), codec (stripped and
upper-cased) and channels (stripped, suffixed with `ch`, skipped when the
stripped text is empty), each guarded by Python truthiness of the
element's text. -/
def audioParts (audio : Elem) : List String :=
  let parts : List String := []
  let parts :=
    match audio.findChild "language" with
    | some language =>
      match language.text with
      | some t => if t = "" then parts else parts ++ [convert_language_code (pyStrip t)]
      | none => parts
    | none => parts
  let parts :=
    match audio.findChild "codec" with
    | some codec =>
      match codec.text with
      | some t => if t = "" then parts else parts ++ [pyUpper (pyStrip t)]
      | none => parts
    | none => parts
  let parts :=
    match audio.findChild "channels" with
    | some channels =>
      match channels.text with
      | some t =>
        if t = "" then parts
        else
          let ch := pyStrip t
          if ch = "" then parts else parts ++ [ch ++ "ch"]
      | none => parts
    | none => parts
  parts

/-- `JellyfinScanner._extract_audio_tracks`: for each `audio` element under
`fileinfo/streamdetails`, append the space-joined `parts` when nonempty. -/
def extract_audio_tracks (root : Elem) : List String :=
  match root.findChild "fileinfo" with
  | none => []
  | some fileinfo =>
    match fileinfo.findChild "streamdetails" with
    | none => []
    | some sd =>
      (sd.findAll "audio").foldl
        (fun acc audio =>
          let parts := audioParts audio
          if parts = [] then acc else acc ++ [String.intercalate " " parts])
        []

/-- The normalized language of one `subtitle` element, when its `language`
child is present with truthy text. -/
def subtitleLang (st : Elem) : Option String :=
  match st.findChild "language" with
  | none => none
  | some language =>
    match language.text with
    | none => none
    | some t => if t = "" then none else some (convert_language_code (pyStrip t))

/-- `JellyfinScanner._extract_subtitle_tracks`: for each `subtitle` element
under `fileinfo/streamdetails`, append the normalized language unless it is
already present. -/
def extract_subtitle_tracks (root : Elem) : List String :=
  match root.findChild "fileinfo" with
  | none => []
  | some fileinfo =>
    match fileinfo.findChild "streamdetails" with
    | none => []
    | some sd =>
      (sd.findAll "subtitle").foldl
        (fun acc st =>
          match subtitleLang st with
          | none => acc
          | some lang => if lang ∈ acc then acc else acc ++ [lang])
        []

/-! ## Artwork resolver (`_find_poster`) -/

/-- The canonical poster filenames tried by `_find_poster`, in order. -/
def poster_names : List String :=
  ["poster.jpg", "poster.png", "folder.jpg", "folder.png", "cover.jpg", "cover.png"]

/-- A directory is `none` when it does not exist, otherwise the list of its
entry names in iteration order.  `(directory / name).exists()`. -/
def dirHas (dir : Option (List String)) (name : String) : Bool :=
  match dir with
  | none => false
  | some files => name ∈ files

/-- `directory.glob('*' + ext)`: entries whose name ends with `ext`, in
iteration order; empty for a nonexistent directory. -/
def dirGlobExt (dir : Option (List String)) (ext : String) : List String :=
  match dir with
  | none => []
  | some files => files.filter (fun f => strEnds f ext)

/-- `JellyfinScanner._find_poster`: first existing canonical name, else the
first image by extension priority `.jpg`, `.jpeg`, `.png`, else `none`. -/
def find_poster (dir : Option (List String)) : Option String :=
  match poster_names.find? (fun n => dirHas dir n) with
  | some n => some n
  | none =>
    match dirGlobExt dir ".jpg" with
    | img :: _ => some img
    | [] =>
      match dirGlobExt dir ".jpeg" with
      | img :: _ => some img
      | [] =>
        match dirGlobExt dir ".png" with
        | img :: _ => some img
        | [] => none

/-- `findArtwork` as the specification words it: for a missing directory
`none`; otherwise the first existing canonical filename, else the
iteration-first file matching extension `.jpg`, then `.jpeg`, then `.png`. -/
def findArtworkSpec (dir : Option (List String)) : Option String :=
  match dir with
  | none => none
  | some files =>
    match poster_names.find? (fun n => decide (n ∈ files)) with
    | some n => some n
    | none =>
      (files.filter (fun f => strEnds f ".jpg") ++
       files.filter (fun f => strEnds f ".jpeg") ++
       files.filter (fun f => strEnds f ".png")).head?

/-! ## Data model -/

/-- `Season` dataclass: season number, episode count, optional poster
(modelled by file name). -/
structure Season where
  season_number : Nat
  episode_count : Nat
  poster_path : Option String
deriving DecidableEq

/-- `MediaItem` dataclass.  Paths are modelled by strings. -/
structure MediaItem where
  title : String
  year : Option String
  description : Option String
  media_type : String
  poster_path : Option String
  nfo_path : String
  audio_tracks : List String
  subtitle_tracks : List String
  seasons : Option (List Season) := none
deriving DecidableEq

/-! ## Season aggregator -/

/-- A file inside a season directory: its name, and its parsed XML content
when it is a well-formed descriptor (`none` for images or malformed files). -/
structure FileEnt where
  name : String
  xml : Option Elem

/-- An immediate subdirectory of a show directory: its name and the files
directly inside it, in iteration order. -/
structure SubDir where
  name : String
  files : List FileEnt

/-- Python `f"{n:02d}"` for a nonnegative integer. -/
def pad2 (n : Nat) : String :=
  if n < 10 then "0" ++ toString n else toString n

/-- Maximal leading run of ASCII digits. -/
def takeDigits : List Char → List Char
  | [] => []
  | c :: cs => if c.isDigit then c :: takeDigits cs else []

/-- Numeric value of a digit run (Python `int`). -/
def natFromDigits (ds : List Char) : Nat :=
  ds.foldl (fun n c => n * 10 + (c.toNat - 48)) 0

/-- Scanner for `re.search(r'season\s*(\d+)', name)`: try every start
position left to right; at a position, match the literal `season`, skip
whitespace greedily, and require at least one digit. -/
def seasonSearch : List Char → Option Nat
  | [] => none
  | c :: cs =>
    if ("season".data).isPrefixOf (c :: cs) then
      let after := (c :: cs).drop 6
      let ds := takeDigits (after.dropWhile pyIsSpace)
      if ds = [] then seasonSearch cs else some (natFromDigits ds)
    else seasonSearch cs

/-- Season number extracted from a (lower-cased) directory name. -/
def parseSeasonNum (name : String) : Option Nat :=
  seasonSearch name.data

/-- `JellyfinScanner._find_season_poster`: show-directory candidates first,
then season-directory candidates, then extension fallback inside the
season directory. -/
def find_season_poster (showFiles : List String) (season_dir : SubDir) (n : Nat) :
    Option String :=
  let show_poster_names :=
    ["season" ++ pad2 n ++ "-poster.jpg", "season" ++ pad2 n ++ "-poster.png",
     "season" ++ toString n ++ "-poster.jpg", "season" ++ toString n ++ "-poster.png",
     "season-" ++ pad2 n ++ "-poster.jpg", "season-" ++ pad2 n ++ "-poster.png"]
  match show_poster_names.find? (fun nm => decide (nm ∈ showFiles)) with
  | some nm => some nm
  | none =>
    let seasonNames := season_dir.files.map (fun f => f.name)
    let season_poster_names :=
      ["poster.jpg", "poster.png", "folder.jpg", "folder.png",
       "season" ++ pad2 n ++ "-poster.jpg", "season" ++ pad2 n ++ "-poster.png"]
    match season_poster_names.find? (fun nm => decide (nm ∈ seasonNames)) with
    | some nm => some nm
    | none =>
      match dirGlobExt (some seasonNames) ".jpg" with
      | img :: _ => some img
      | [] =>
        match dirGlobExt (some seasonNames) ".jpeg" with
        | img :: _ => some img
        | [] =>
          match dirGlobExt (some seasonNames) ".png" with
          | img :: _ => some img
          | [] => none

/-- Relation used to model `sorted(season_dirs)` (paths share the parent,
so `Path` comparison reduces to the directory name). -/
def subDirNameLe (a b : SubDir) : Prop :=
  pyStrLe a.name b.name

instance : DecidableRel subDirNameLe := fun a b => by
  unfold subDirNameLe; infer_instance

/-- Ordering of `Season` records by season number, the key of the final
`sorted(seasons, key=lambda s: s.season_number)`. -/
def seasonLe (a b : Season) : Prop :=
  a.season_number ≤ b.season_number

instance : DecidableRel seasonLe := fun a b => by
  unfold seasonLe; infer_instance

instance : IsTotal Season seasonLe :=
  ⟨fun a b => Nat.le_total a.season_number b.season_number⟩

instance : IsTrans Season seasonLe :=
  ⟨fun _ _ _ h1 h2 => Nat.le_trans h1 h2⟩

/-- `JellyfinScanner._collect_season_info`: keep subdirectories whose
lower-cased name starts with `season`, iterate them in sorted-path order,
extract the season number (skipping directories without one), count the
episode descriptors, resolve the season poster, and return the records
sorted by season number. -/
def collect_season_info (showFiles : List String) (subdirs : List SubDir) :
    List Season :=
  let season_dirs := subdirs.filter (fun d => strStarts (pyLower d.name) "season")
  let sorted_dirs := List.insertionSort subDirNameLe season_dirs
  let seasons := sorted_dirs.foldl
    (fun acc sd =>
      match parseSeasonNum (pyLower sd.name) with
      | none => acc
      | some n =>
        let episode_count :=
          (sd.files.filter (fun f =>
            strEnds f.name ".nfo" && !(strStarts (pyLower f.name) "season"))).length
        acc ++ [{ season_number := n, episode_count := episode_count,
                  poster_path := find_season_poster showFiles sd n }])
    []
  List.insertionSort seasonLe seasons

/-! ## Library scanner -/

/-- One descriptor file discovered by `rglob("*.nfo")`: its file name, the
names of the files in its containing directory, the subdirectories of that
directory, and its parsed content (`none` when `ET.parse` raises). -/
structure NfoEntry where
  filename : String
  dirFiles : List String
  subdirs : List SubDir
  content : Option Elem

/-- The scanned tree: whether the root path exists (and is readable) and
the descriptor files found under it, in discovery order. -/
structure ScanFS where
  rootExists : Bool
  nfos : List NfoEntry

/-- `base_path.rglob("*.nfo")`: discovery-ordered descriptor files; the
empty list when the root does not exist (pathlib yields nothing for a
nonexistent directory and raises no error). -/
def rglobNfo (fs : ScanFS) : List NfoEntry :=
  if fs.rootExists then fs.nfos else []

/-- Classification outcome for one descriptor file in `scan`'s first loop. -/
inductive Kind where
  | show_
  | movie
  | episode
  | skip
deriving DecidableEq

/-- The `if/elif/else` classification of one descriptor file in `scan`:
literal name `tvshow.nfo`, then the `s*.nfo` episode pattern, then root-tag
inspection (`movie`, `episodedetails`), everything else falling through. -/
def classifyKind (f : NfoEntry) : Kind :=
  let filename := pyLower f.filename
  if filename = "tvshow.nfo" then Kind.show_
  else if strStarts filename "s" && strEnds filename ".nfo" then Kind.episode
  else
    match f.content with
    | some root =>
      if root.tag = "movie" then Kind.movie
      else if root.tag = "episodedetails" then Kind.episode
      else Kind.skip
    | none => Kind.skip

/-- The single classification pass of `scan`, building the three lists
(`tvshow_nfos`, `movie_nfos`, `episode_nfos`) by appending in discovery
order. -/
def classifyAll (files : List NfoEntry) :
    List NfoEntry × List NfoEntry × List NfoEntry :=
  files.foldl
    (fun acc f =>
      match classifyKind f with
      | Kind.show_ => (acc.1 ++ [f], acc.2.1, acc.2.2)
      | Kind.movie => (acc.1, acc.2.1 ++ [f], acc.2.2)
      | Kind.episode => (acc.1, acc.2.1, acc.2.2 ++ [f])
      | Kind.skip => acc)
    ([], [], [])

/-- `JellyfinScanner._parse_nfo`: build a `MediaItem` from a movie
descriptor; `none` when parsing raised. -/
def parse_nfo (f : NfoEntry) : Option MediaItem :=
  match f.content with
  | none => none
  | some root =>
    some { title := pyOrStr (get_text root "title") "Unknown",
           year := get_text root "year",
           description := pyOrOpt (pyOrOpt (get_text root "plot")
                            (get_text root "outline")) (get_text root "overview"),
           media_type := root.tag,
           poster_path := find_poster (some f.dirFiles),
           nfo_path := f.filename,
           audio_tracks := extract_audio_tracks root,
           subtitle_tracks := extract_subtitle_tracks root,
           seasons := none }

/-- The audio/subtitle fallback of `_parse_tvshow_with_seasons`: look for
`Season {NN}`, then `Season {N}`, glob its descriptors and borrow the
tracks from the first one; every failure leaves the tracks empty. -/
def episodeFallback (subdirs : List SubDir) (n : Nat) :
    List String × List String :=
  let sdir :=
    match subdirs.find? (fun d => d.name = "Season " ++ pad2 n) with
    | some d => some d
    | none => subdirs.find? (fun d => d.name = "Season " ++ toString n)
  match sdir with
  | none => ([], [])
  | some d =>
    match (d.files.filter (fun fe => strEnds fe.name ".nfo")).head? with
    | none => ([], [])
    | some ep =>
      match ep.xml with
      | none => ([], [])
      | some eproot => (extract_audio_tracks eproot, extract_subtitle_tracks eproot)

/-- `JellyfinScanner._parse_tvshow_with_seasons`: parse the show-level
descriptor, collect seasons, and when the show-level descriptor carries
neither audio nor subtitle tracks and at least one season exists, borrow
the tracks from the first episode of the first season. -/
def parse_tvshow_with_seasons (f : NfoEntry) : Option MediaItem :=
  match f.content with
  | none => none
  | some root =>
    let audio_tracks := extract_audio_tracks root
    let subtitle_tracks := extract_subtitle_tracks root
    let seasons := collect_season_info f.dirFiles f.subdirs
    let tracks :=
      match seasons with
      | [] => (audio_tracks, subtitle_tracks)
      | s0 :: _ =>
        if audio_tracks = [] ∧ subtitle_tracks = [] then
          episodeFallback f.subdirs s0.season_number
        else (audio_tracks, subtitle_tracks)
    some { title := pyOrStr (get_text root "title") "Unknown",
           year := get_text root "year",
           description := pyOrOpt (pyOrOpt (get_text root "plot")
                            (get_text root "outline")) (get_text root "overview"),
           media_type := "tvshow",
           poster_path := find_poster (some f.dirFiles),
           nfo_path := f.filename,
           audio_tracks := tracks.1,
           subtitle_tracks := tracks.2,
           seasons := some seasons }

/-- `JellyfinScanner.scan`: classify every discovered descriptor, then
append the parsed movies and after them the parsed shows to `self.items`. -/
def scan (fs : ScanFS) : List MediaItem :=
  let nfo_files := rglobNfo fs
  let classified := classifyAll nfo_files
  let tvshow_nfos := classified.1
  let movie_nfos := classified.2.1
  let items := movie_nfos.foldl
    (fun acc f =>
      match parse_nfo f with
      | some item => acc ++ [item]
      | none => acc)
    []
  tvshow_nfos.foldl
    (fun acc f =>
      match parse_tvshow_with_seasons f with
      | some item => acc ++ [item]
      | none => acc)
    items

/-! ## Sort engine (`CatalogSorter`) -/

/-- The `ARTICLES` set, written out as in the source (set membership is
unaffected by the duplicated `la`/`un`). -/
def ARTICLES : List String :=
  ["der", "die", "das", "ein", "eine",
   "the", "a", "an",
   "le", "la", "les", "un", "une", "des",
   "el", "la", "los", "las", "un", "una", "unos", "unas"]

/-- `CatalogSorter._get_sort_key`. -/
def get_sort_key (title : String) : String :=
  if title = "" then ""
  else
    let title_lower := pyStrip (pyLower title)
    let words := pySplit title_lower
    match words with
    | [] => title_lower
    | first_word :: rest =>
      if first_word ∈ ARTICLES ∧ rest ≠ [] then String.intercalate " " rest
      else title_lower

/-- The sort key of `sort_by_year`: `(x.year or "0000",
CatalogSorter._get_sort_key(x.title))`. -/
def yearKey (x : MediaItem) : String × String :=
  (pyOrStr x.year "0000", get_sort_key x.title)

/-- Lexicographic order on pairs of strings, as Python compares key tuples. -/
def strPairLe (a b : String × String) : Prop :=
  pyStrLt a.1 b.1 ∨ (a.1 = b.1 ∧ pyStrLe a.2 b.2)

instance : ∀ a b : String × String, Decidable (strPairLe a b) := fun a b => by
  unfold strPairLe; infer_instance

/-- The ordering realised by `sorted(items, key=..., reverse=True)`:
`a` precedes `b` when `b`'s key is lexicographically at most `a`'s key
(a stable sort with this relation reproduces CPython's reversed stable
sort, which keeps the original order of equal keys). -/
def yearRevLe (a b : MediaItem) : Prop :=
  strPairLe (yearKey b) (yearKey a)

instance : DecidableRel yearRevLe := fun a b => by
  unfold yearRevLe; infer_instance

/-- `CatalogSorter.sort_by_year`. -/
def sort_by_year (items : List MediaItem) : List MediaItem :=
  List.insertionSort yearRevLe items

/-! ## Specification-side definitions

These follow the specification's wording and are compared with the
embedded source functions in refinement theorems. -/

/-- The elements of one kind nested under `fileinfo/streamdetails`. -/
def streamElems (root : Elem) (kind : String) : List Elem :=
  match root.findChild "fileinfo" with
  | none => []
  | some fileinfo =>
    match fileinfo.findChild "streamdetails" with
    | none => []
    | some sd => sd.findAll kind

/-- The normalized subtitle languages of a descriptor, in source order,
before deduplication. -/
def subLangs (root : Elem) : List String :=
  (streamElems root "subtitle").filterMap subtitleLang

/-- Order-preserving deduplication keeping the first occurrence of every
element, the specification's "first-seen order" of distinct names. -/
def ddFirst : List String → List String
  | [] => []
  | a :: l => a :: (ddFirst l).filter (fun b => b ≠ a)

/-- The normalized language field of an `audio` element, present when the
`language` child exists with truthy text. -/
def audioLang (a : Elem) : Option String :=
  match a.findChild "language" with
  | none => none
  | some language =>
    match language.text with
    | none => none
    | some t => if t = "" then none else some (convert_language_code (pyStrip t))

/-- The upper-cased codec field of an `audio` element, present when the
`codec` child exists with truthy text. -/
def audioCodec (a : Elem) : Option String :=
  match a.findChild "codec" with
  | none => none
  | some codec =>
    match codec.text with
    | none => none
    | some t => if t = "" then none else some (pyUpper (pyStrip t))

/-- The channel-count field of an `audio` element suffixed with `ch`,
present when the `channels` child exists with truthy text that is nonempty
after stripping. -/
def audioChannels (a : Elem) : Option String :=
  match a.findChild "channels" with
  | none => none
  | some channels =>
    match channels.text with
    | none => none
    | some t =>
      if t = "" then none
      else
        let ch := pyStrip t
        if ch = "" then none else some (ch ++ "ch")

/-- The up-to-three present fields of an `audio` element, in the order
language, codec, channels, absent fields omitted. -/
def audioFieldsSpec (a : Elem) : List String :=
  (audioLang a).toList ++ (audioCodec a).toList ++ (audioChannels a).toList

/-- The display entry contributed by one `audio` element: the present
fields joined by single spaces, or nothing when no field is present. -/
def audioDisplaySpec (a : Elem) : Option String :=
  if audioFieldsSpec a = [] then none
  else some (String.intercalate " " (audioFieldsSpec a))

/-! ## Concrete instances used by counterexamples and witnesses -/

/-- Item with year 2000 and sort key `alpha`. -/
def cxAlpha : MediaItem :=
  { title := "Alpha", year := some "2000", description := none,
    media_type := "movie", poster_path := none, nfo_path := "alpha.nfo",
    audio_tracks := [], subtitle_tracks := [], seasons := none }

/-- Item with year 2000 and sort key `beta`. -/
def cxBeta : MediaItem :=
  { title := "Beta", year := some "2000", description := none,
    media_type := "movie", poster_path := none, nfo_path := "beta.nfo",
    audio_tracks := [], subtitle_tracks := [], seasons := none }

/-- Item with year 2001 (for the specification's year-sort example). -/
def my2001 : MediaItem :=
  { title := "M1", year := some "2001", description := none,
    media_type := "movie", poster_path := none, nfo_path := "m1.nfo",
    audio_tracks := [], subtitle_tracks := [], seasons := none }

/-- Item with no year. -/
def myNone : MediaItem :=
  { title := "M2", year := none, description := none,
    media_type := "movie", poster_path := none, nfo_path := "m2.nfo",
    audio_tracks := [], subtitle_tracks := [], seasons := none }

/-- Item with year 1999. -/
def my1999 : MediaItem :=
  { title := "M3", year := some "1999", description := none,
    media_type := "movie", poster_path := none, nfo_path := "m3.nfo",
    audio_tracks := [], subtitle_tracks := [], seasons := none }

/-- A show directory holding both `Season 1` and `Season 01`, which parse
to the same season number. -/
def c2subdirs : List SubDir :=
  [{ name := "Season 1", files := [] }, { name := "Season 01", files := [] }]

/-- A descriptor with root tag `tvshow` in a file not named `tvshow.nfo`. -/
def c3root : Elem :=
  .mk "tvshow" none [.mk "title" (some "My Show") []]

/-- The descriptor file wrapping `c3root`. -/
def c3file : NfoEntry :=
  { filename := "myshow.nfo", dirFiles := [], subdirs := [], content := some c3root }

/-- A library containing only `c3file`. -/
def c3fs : ScanFS :=
  { rootExists := true, nfos := [c3file] }

/-- A movie descriptor used to witness the movie branch of classification. -/
def c3movieRoot : Elem :=
  .mk "movie" none [.mk "title" (some "A Film") []]

/-- The descriptor file wrapping `c3movieRoot`. -/
def c3movieFile : NfoEntry :=
  { filename := "film.nfo", dirFiles := [], subdirs := [], content := some c3movieRoot }

/-- A show descriptor file named `tvshow.nfo`, discovered first. -/
def c5show : NfoEntry :=
  { filename := "tvshow.nfo", dirFiles := [], subdirs := [],
    content := some (.mk "tvshow" none []) }

/-- A movie descriptor file, discovered second. -/
def c5movie : NfoEntry :=
  { filename := "film.nfo", dirFiles := [], subdirs := [],
    content := some (.mk "movie" none []) }

/-- A library whose discovery order is show first, movie second. -/
def c5fs : ScanFS :=
  { rootExists := true, nfos := [c5show, c5movie] }

/-- A nonexistent (or unreadable) root: file enumeration yields nothing. -/
def missingRootFS : ScanFS :=
  { rootExists := false, nfos := [] }

/-- A readable root that contains no descriptor files at all. -/
def emptyRootFS : ScanFS :=
  { rootExists := true, nfos := [] }

/-! ## Order lemmas for the Python string comparison -/

/-- `lexLt` is irreflexive. -/
theorem lexLt_irrefl : ∀ l : List Char, lexLt l l = false := by
  intro l
  induction l with
  | nil => rfl
  | cons c cs ih => simp [lexLt, lt_irrefl, ih]

/-- `lexLt` is transitive. -/
theorem lexLt_trans : ∀ a b c : List Char,
    lexLt a b = true → lexLt b c = true → lexLt a c = true := by
  intro a
  induction a with
  | nil =>
    intro b c hab hbc
    cases b with
    | nil => simp [lexLt] at hab
    | cons y ys =>
      cases c with
      | nil => simp [lexLt] at hbc
      | cons z zs => simp [lexLt]
  | cons x xs ih =>
    intro b c hab hbc
    cases b with
    | nil => simp [lexLt] at hab
    | cons y ys =>
      cases c with
      | nil => simp [lexLt] at hbc
      | cons z zs =>
        simp only [lexLt] at hab hbc ⊢
        by_cases h1 : x < y
        · by_cases h2 : y < z
          · simp [lt_trans h1 h2]
          · by_cases h3 : z < y
            · simp [h2, h3] at hbc
            · have hyz : y = z := le_antisymm (le_of_not_lt h3) (le_of_not_lt h2)
              subst hyz
              simp [h1]
        · by_cases h4 : y < x
          · simp [h1, h4] at hab
          · have hxy : x = y := le_antisymm (le_of_not_lt h4) (le_of_not_lt h1)
            subst hxy
            simp [lt_irrefl] at hab
            by_cases h2 : x < z
            · simp [h2]
            · by_cases h3 : z < x
              · simp [h2, h3] at hbc
              · have hxz : x = z := le_antisymm (le_of_not_lt h3) (le_of_not_lt h2)
                subst hxz
                simp [lt_irrefl] at hbc ⊢
                exact ih ys zs hab hbc

/-- Trichotomy for `lexLt`. -/
theorem lexLt_trichotomy : ∀ a b : List Char,
    lexLt a b = true ∨ a = b ∨ lexLt b a = true := by
  intro a
  induction a with
  | nil =>
    intro b
    cases b with
    | nil => exact Or.inr (Or.inl rfl)
    | cons y ys => exact Or.inl (by simp [lexLt])
  | cons x xs ih =>
    intro b
    cases b with
    | nil => exact Or.inr (Or.inr (by simp [lexLt]))
    | cons y ys =>
      rcases lt_trichotomy x y with h | h | h
      · exact Or.inl (by simp [lexLt, h])
      · subst h
        rcases ih ys with h2 | h2 | h2
        · exact Or.inl (by simp [lexLt, lt_irrefl, h2])
        · subst h2; exact Or.inr (Or.inl rfl)
        · exact Or.inr (Or.inr (by simp [lexLt, lt_irrefl, h2]))
      · exact Or.inr (Or.inr (by simp [lexLt, h, lt_asymm h]))

/-- The modelled Python `<=` on strings is total. -/
theorem pyStrLe_total (a b : String) : pyStrLe a b = true ∨ pyStrLe b a = true := by
  unfold pyStrLe pyStrLt
  by_cases h1 : lexLt b.data a.data = true
  · by_cases h2 : lexLt a.data b.data = true
    · have h3 := lexLt_trans _ _ _ h1 h2
      rw [lexLt_irrefl] at h3
      exact absurd h3 (by simp)
    · exact Or.inr (by simp [h2])
  · exact Or.inl (by simp [h1])

/-- The key-tuple order is total. -/
theorem strPairLe_total (a b : String × String) : strPairLe a b ∨ strPairLe b a := by
  unfold strPairLe
  rcases lexLt_trichotomy a.1.data b.1.data with h | h | h
  · exact Or.inl (Or.inl h)
  · have he : a.1 = b.1 := congrArg String.mk h
    rcases pyStrLe_total a.2 b.2 with h2 | h2
    · exact Or.inl (Or.inr ⟨he, h2⟩)
    · exact Or.inr (Or.inr ⟨he.symm, h2⟩)
  · exact Or.inr (Or.inl h)

/-- The key-tuple order is transitive. -/
theorem strPairLe_trans (a b c : String × String) :
    strPairLe a b → strPairLe b c → strPairLe a c := by
  rintro (h1 | ⟨e1, l1⟩) (h2 | ⟨e2, l2⟩)
  · exact Or.inl (lexLt_trans _ _ _ h1 h2)
  · rw [strPairLe]; rw [e2] at h1; exact Or.inl h1
  · rw [strPairLe]; rw [← e1] at h2; exact Or.inl h2
  · refine Or.inr ⟨e1.trans e2, ?_⟩
    unfold pyStrLe pyStrLt at l1 l2 ⊢
    simp only [Bool.not_eq_true'] at l1 l2 ⊢
    cases hca : lexLt c.2.data a.2.data with
    | false => rfl
    | true =>
      exfalso
      rcases lexLt_trichotomy a.2.data b.2.data with h | h | h
      · have := lexLt_trans _ _ _ hca h
        rw [l2] at this
        exact Bool.false_ne_true this
      · rw [h] at hca
        rw [l2] at hca
        exact Bool.false_ne_true hca
      · rw [l1] at h
        exact Bool.false_ne_true h

instance : IsTotal MediaItem yearRevLe :=
  ⟨fun a b => by unfold yearRevLe; exact strPairLe_total (yearKey b) (yearKey a)⟩

instance : IsTrans MediaItem yearRevLe :=
  ⟨fun a b c h1 h2 => by
    unfold yearRevLe at h1 h2 ⊢
    exact strPairLe_trans _ _ _ h2 h1⟩

/-! ## C7: language normalizer -/

/-- C7: `normalize` is total and case-insensitive on every table code —
each table entry yields the same result whether the code is given as is,
upper-cased or lower-cased — and a code whose lower-casing misses the
table is returned with only its first letter capitalized. -/
theorem c7_normalize :
    (∀ p ∈ language_map,
      convert_language_code p.1 = convert_language_code (pyUpper p.1)
      ∧ convert_language_code p.1 = convert_language_code (pyLower p.1))
    ∧ ∀ code : String,
      language_map.find? (fun q => q.1 = pyLower code) = none →
      convert_language_code code = pyCapitalize code := by
  constructor
  · decide
  · intro code h
    unfold convert_language_code
    rw [h]

/-- Witness for C7 at the table entry `ger` and the unknown code `xx`. -/
theorem c7_normalize_witness :
    (convert_language_code "ger" = convert_language_code (pyUpper "ger")
     ∧ convert_language_code "ger" = convert_language_code (pyLower "ger"))
    ∧ convert_language_code "xx" = pyCapitalize "xx" :=
  ⟨c7_normalize.1 ("ger", "German") (by decide), c7_normalize.2 "xx" (by decide)⟩

/-! ## C6: the sort key -/

/-- C6: when the first whitespace-delimited word of the lower-cased,
trimmed title is an article and more words follow, the sort key is the
remaining words joined by single spaces; in every other case (single-word
article included) it is the full lower-cased trimmed title. -/
theorem c6_sort_key (title : String) :
    (∀ w rest, pySplit (pyStrip (pyLower title)) = w :: rest →
      w ∈ ARTICLES → rest ≠ [] →
      get_sort_key title = String.intercalate " " rest)
    ∧ (∀ w rest, pySplit (pyStrip (pyLower title)) = w :: rest →
      w ∉ ARTICLES ∨ rest = [] →
      get_sort_key title = pyStrip (pyLower title))
    ∧ (pySplit (pyStrip (pyLower title)) = [] →
      get_sort_key title = pyStrip (pyLower title)) := by
  by_cases ht : title = ""
  · subst ht
    refine ⟨?_, ?_, ?_⟩
    · intro w rest h
      rw [show pySplit (pyStrip (pyLower "")) = [] from rfl] at h
      exact absurd h (by simp)
    · intro w rest h
      rw [show pySplit (pyStrip (pyLower "")) = [] from rfl] at h
      exact absurd h (by simp)
    · intro _
      decide
  · refine ⟨?_, ?_, ?_⟩
    · intro w rest h hmem hne
      simp only [get_sort_key, if_neg ht]
      rw [h]
      show (if w ∈ ARTICLES ∧ rest ≠ [] then String.intercalate " " rest
            else pyStrip (pyLower title)) = String.intercalate " " rest
      rw [if_pos ⟨hmem, hne⟩]
    · intro w rest h hor
      simp only [get_sort_key, if_neg ht]
      rw [h]
      show (if w ∈ ARTICLES ∧ rest ≠ [] then String.intercalate " " rest
            else pyStrip (pyLower title)) = pyStrip (pyLower title)
      rw [if_neg]
      rcases hor with hm | hr
      · exact fun hc => hm hc.1
      · exact fun hc => hc.2 hr
    · intro h
      simp only [get_sort_key, if_neg ht]
      rw [h]

/-- Witness for C6 at `The Matrix` (article stripped) and `the`
(single-word article kept). -/
theorem c6_sort_key_witness :
    get_sort_key "The Matrix" = String.intercalate " " ["matrix"]
    ∧ get_sort_key "the" = pyStrip (pyLower "the") :=
  ⟨(c6_sort_key "The Matrix").1 "the" ["matrix"] (by decide) (by decide) (by decide),
   (c6_sort_key "the").2.1 "the" [] (by decide) (Or.inr rfl)⟩

/-! ## C8: subtitle deduplication -/

/-- `ddFirst` commutes with `filter`. -/
theorem ddFirst_filter (p : String → Bool) :
    ∀ l : List String, ddFirst (l.filter p) = (ddFirst l).filter p := by
  intro l
  induction l with
  | nil => rfl
  | cons a l ih =>
    by_cases hp : p a = true
    · rw [List.filter_cons_of_pos hp]
      show a :: (ddFirst (l.filter p)).filter (fun b => b ≠ a)
        = (a :: (ddFirst l).filter (fun b => b ≠ a)).filter p
      rw [List.filter_cons_of_pos hp, ih]
      congr 1
      rw [List.filter_filter, List.filter_filter]
      exact List.filter_congr (fun b _ => Bool.and_comm _ _)
    · rw [List.filter_cons_of_neg (by simp [hp])]
      show ddFirst (l.filter p)
        = (a :: (ddFirst l).filter (fun b => b ≠ a)).filter p
      rw [List.filter_cons_of_neg (by simp [hp]), ih, List.filter_filter]
      refine List.filter_congr (fun b _ => ?_)
      by_cases hb : b = a
      · subst hb
        simp [hp]
      · simp [hb]

/-- `ddFirst` yields a list without duplicates. -/
theorem nodup_ddFirst : ∀ l : List String, (ddFirst l).Nodup := by
  intro l
  induction l with
  | nil => exact List.nodup_nil
  | cons a l ih =>
    show (a :: (ddFirst l).filter (fun b => b ≠ a)).Nodup
    refine List.nodup_cons.mpr ⟨?_, ih.filter _⟩
    intro hmem
    have hb := (List.mem_filter.mp hmem).2
    simp at hb

/-- The membership-checking fold of `_extract_subtitle_tracks` computes
the first-occurrence deduplication of the languages not yet accumulated. -/
theorem foldl_dedup (l : List Elem) : ∀ acc : List String,
    l.foldl (fun acc st =>
      match subtitleLang st with
      | none => acc
      | some lang => if lang ∈ acc then acc else acc ++ [lang]) acc
    = acc ++ ddFirst ((l.filterMap subtitleLang).filter (fun x => x ∉ acc)) := by
  induction l with
  | nil => intro acc; simp [ddFirst]
  | cons a l ih =>
    intro acc
    rw [List.foldl_cons]
    cases ha : subtitleLang a with
    | none =>
      simp only [ha]
      rw [ih, List.filterMap_cons, ha]
    | some x =>
      simp only [ha]
      by_cases hx : x ∈ acc
      · rw [if_pos hx, ih, List.filterMap_cons, ha]
        rw [List.filter_cons_of_neg (by simp [hx])]
      · rw [if_neg hx, ih, List.filterMap_cons, ha]
        rw [List.filter_cons_of_pos (by simp [hx])]
        have hsplit : (List.filter (fun b => decide (b ∉ acc ++ [x]))
              (l.filterMap subtitleLang))
            = ((l.filterMap subtitleLang).filter (fun b => decide (b ∉ acc))).filter
                (fun b => b ≠ x) := by
          rw [List.filter_filter]
          refine List.filter_congr (fun b _ => ?_)
          by_cases hb : b = x
          · subst hb
            simp [List.mem_append]
          · by_cases hba : b ∈ acc
            · simp [List.mem_append, hb, hba]
            · simp [List.mem_append, hb, hba]
        rw [hsplit, ddFirst_filter]
        simp [ddFirst, List.append_assoc]

/-- C8: the extracted subtitle tracks are exactly the first-occurrence
deduplication of the normalized subtitle languages — no display name
appears twice, and the distinct names keep their first-seen order. -/
theorem c8_subtitles (root : Elem) :
    extract_subtitle_tracks root = ddFirst (subLangs root)
    ∧ (extract_subtitle_tracks root).Nodup := by
  have hmain : extract_subtitle_tracks root = ddFirst (subLangs root) := by
    cases h1 : root.findChild "fileinfo" with
    | none => simp [extract_subtitle_tracks, subLangs, streamElems, h1, ddFirst]
    | some fi =>
      cases h2 : fi.findChild "streamdetails" with
      | none => simp [extract_subtitle_tracks, subLangs, streamElems, h1, h2, ddFirst]
      | some sd =>
        simp only [extract_subtitle_tracks, subLangs, streamElems, h1, h2]
        rw [foldl_dedup]
        simp
  exact ⟨hmain, hmain ▸ nodup_ddFirst _⟩

/-! ## C9: audio tracks -/

/-- The language step of the `parts` construction appends the optional
language field. -/
theorem lang_step (a : Elem) (parts : List String) :
    (match a.findChild "language" with
     | some language =>
       match language.text with
       | some t => if t = "" then parts else parts ++ [convert_language_code (pyStrip t)]
       | none => parts
     | none => parts) = parts ++ (audioLang a).toList := by
  unfold audioLang
  cases h1 : a.findChild "language" with
  | none => simp
  | some language =>
    cases h2 : language.text with
    | none => simp [h2]
    | some t => by_cases ht : t = "" <;> simp [h2, ht]

/-- The codec step of the `parts` construction appends the optional codec
field. -/
theorem codec_step (a : Elem) (parts : List String) :
    (match a.findChild "codec" with
     | some codec =>
       match codec.text with
       | some t => if t = "" then parts else parts ++ [pyUpper (pyStrip t)]
       | none => parts
     | none => parts) = parts ++ (audioCodec a).toList := by
  unfold audioCodec
  cases h1 : a.findChild "codec" with
  | none => simp
  | some codec =>
    cases h2 : codec.text with
    | none => simp [h2]
    | some t => by_cases ht : t = "" <;> simp [h2, ht]

/-- The channels step of the `parts` construction appends the optional
channel-count field. -/
theorem channels_step (a : Elem) (parts : List String) :
    (match a.findChild "channels" with
     | some channels =>
       match channels.text with
       | some t =>
         if t = "" then parts
         else
           let ch := pyStrip t
           if ch = "" then parts else parts ++ [ch ++ "ch"]
       | none => parts
     | none => parts) = parts ++ (audioChannels a).toList := by
  unfold audioChannels
  cases h1 : a.findChild "channels" with
  | none => simp
  | some channels =>
    cases h2 : channels.text with
    | none => simp [h2]
    | some t =>
      by_cases ht : t = ""
      · simp [h2, ht]
      · by_cases hch : pyStrip t = "" <;> simp [h2, ht, hch]

/-- The imperative `parts` construction equals the three optional fields
of the specification, concatenated in order. -/
theorem audioParts_eq (a : Elem) : audioParts a = audioFieldsSpec a := by
  simp only [audioParts]
  rw [lang_step, codec_step, channels_step]
  simp [audioFieldsSpec, List.append_assoc]

/-- The append-building fold over `audio` elements computes a `filterMap`
of the per-element display entry. -/
theorem foldl_audio : ∀ (l : List Elem) (acc : List String),
    l.foldl (fun acc audio =>
      let parts := audioParts audio
      if parts = [] then acc else acc ++ [String.intercalate " " parts]) acc
    = acc ++ l.filterMap audioDisplaySpec := by
  intro l
  induction l with
  | nil => intro acc; simp
  | cons a l ih =>
    intro acc
    cases hd : audioDisplaySpec a with
    | none =>
      have hp : audioFieldsSpec a = [] := by
        by_contra hp
        rw [audioDisplaySpec, if_neg hp] at hd
        exact Option.noConfusion hd
      rw [List.foldl_cons]
      conv_lhs => arg 2; simp [audioParts_eq, hp]
      simp only [List.filterMap_cons, hd]
      exact ih acc
    | some s =>
      have hp : ¬ audioFieldsSpec a = [] := by
        intro hp
        rw [audioDisplaySpec, if_pos hp] at hd
        exact Option.noConfusion hd
      have hs : s = String.intercalate " " (audioFieldsSpec a) := by
        rw [audioDisplaySpec, if_neg hp] at hd
        exact (Option.some.inj hd).symm
      rw [List.foldl_cons]
      conv_lhs => arg 2; simp [audioParts_eq, hp]
      rw [ih]
      simp [List.filterMap_cons, hd, ← hs, List.append_assoc]

/-- C9: each `audio` element under `fileinfo/streamdetails` contributes
the space-joined concatenation of its present fields (normalized language,
upper-cased codec, channel count suffixed with `ch`), elements with no
present field contribute nothing, and the result keeps source order and
admits duplicates — it is the `filterMap` of the per-element display
entry over the `audio` elements. -/
theorem c9_audio (root : Elem) :
    extract_audio_tracks root = (streamElems root "audio").filterMap audioDisplaySpec := by
  cases h1 : root.findChild "fileinfo" with
  | none => simp [extract_audio_tracks, streamElems, h1]
  | some fi =>
    cases h2 : fi.findChild "streamdetails" with
    | none => simp [extract_audio_tracks, streamElems, h1, h2]
    | some sd =>
      simp only [extract_audio_tracks, streamElems, h1, h2]
      rw [foldl_audio]
      simp

/-! ## C10: artwork resolver -/

/-- First element of three chained fallback lists, as `head?` of their
concatenation. -/
theorem head_append3 (l1 l2 l3 : List String) :
    (match l1 with
     | img :: _ => some img
     | [] =>
       match l2 with
       | img :: _ => some img
       | [] =>
         match l3 with
         | img :: _ => some img
         | [] => none) = (l1 ++ l2 ++ l3).head? := by
  cases l1 <;> cases l2 <;> cases l3 <;> simp

/-- C10: `_find_poster` behaves exactly as the specification's
`findArtwork`: first existing canonical name in order, then the
iteration-first image by extension priority `.jpg`, `.jpeg`, `.png`, and
`none` when nothing matches or the directory is missing; in particular
`poster.jpg` is preferred over `folder.jpg` over a `banner.jpg`. -/
theorem c10_find_poster :
    (∀ dir : Option (List String), find_poster dir = findArtworkSpec dir)
    ∧ find_poster (some ["banner.jpg", "folder.jpg", "poster.jpg"]) = some "poster.jpg"
    ∧ find_poster (some ["banner.jpg", "folder.jpg"]) = some "folder.jpg"
    ∧ find_poster (some ["banner.jpg"]) = some "banner.jpg"
    ∧ find_poster (some []) = none
    ∧ find_poster none = none := by
  refine ⟨?_, by decide, by decide, by decide, by decide, by decide⟩
  intro dir
  cases dir with
  | none => decide
  | some files =>
    simp only [find_poster, findArtworkSpec]
    have hfind : (fun n => dirHas (some files) n) = (fun n => decide (n ∈ files)) := rfl
    rw [hfind]
    cases h : poster_names.find? (fun n => decide (n ∈ files)) with
    | some n => simp
    | none =>
      simp only [dirGlobExt]
      exact head_append3 _ _ _

/-! ## C5: scan output order -/

/-- The single classification pass produces the three filtered sublists of
the discovery list, appended to the accumulators. -/
theorem classify_fold (files : List NfoEntry) : ∀ t m e : List NfoEntry,
    files.foldl (fun acc f =>
      match classifyKind f with
      | Kind.show_ => (acc.1 ++ [f], acc.2.1, acc.2.2)
      | Kind.movie => (acc.1, acc.2.1 ++ [f], acc.2.2)
      | Kind.episode => (acc.1, acc.2.1, acc.2.2 ++ [f])
      | Kind.skip => acc) (t, m, e)
    = (t ++ files.filter (fun f => classifyKind f = Kind.show_),
       m ++ files.filter (fun f => classifyKind f = Kind.movie),
       e ++ files.filter (fun f => classifyKind f = Kind.episode)) := by
  induction files with
  | nil => intro t m e; simp
  | cons a files ih =>
    intro t m e
    rw [List.foldl_cons]
    cases hk : classifyKind a <;>
      simp [hk, ih, List.filter_cons, List.append_assoc]

/-- `classifyAll` is the triple of classification filters. -/
theorem classifyAll_eq (files : List NfoEntry) :
    classifyAll files
    = (files.filter (fun f => classifyKind f = Kind.show_),
       files.filter (fun f => classifyKind f = Kind.movie),
       files.filter (fun f => classifyKind f = Kind.episode)) := by
  unfold classifyAll
  simpa using classify_fold files [] [] []

/-- An appending parse loop is a `filterMap`. -/
theorem foldl_parse (p : NfoEntry → Option MediaItem) :
    ∀ (l : List NfoEntry) (acc : List MediaItem),
    l.foldl (fun acc f =>
      match p f with
      | some item => acc ++ [item]
      | none => acc) acc
    = acc ++ l.filterMap p := by
  intro l
  induction l with
  | nil => intro acc; simp
  | cons a l ih =>
    intro acc
    rw [List.foldl_cons]
    cases hp : p a <;> simp [hp, ih, List.filterMap_cons, List.append_assoc]

/-- C5 (amended): `scan` returns the successfully parsed movie
descriptors in discovery order, followed by the successfully parsed show
descriptors in discovery order — not the interleaved discovery order. -/
theorem c5_scan_order (fs : ScanFS) :
    scan fs
    = ((rglobNfo fs).filter (fun f => classifyKind f = Kind.movie)).filterMap parse_nfo
      ++ ((rglobNfo fs).filter
          (fun f => classifyKind f = Kind.show_)).filterMap parse_tvshow_with_seasons := by
  simp only [scan]
  rw [classifyAll_eq]
  rw [foldl_parse parse_nfo, foldl_parse parse_tvshow_with_seasons]
  simp

/-- C5 counterexample: a show descriptor discovered before a movie
descriptor still comes out after it. -/
theorem c5_counterexample :
    (rglobNfo c5fs).map NfoEntry.filename = ["tvshow.nfo", "film.nfo"]
    ∧ (scan c5fs).map MediaItem.media_type = ["movie", "tvshow"] := by decide

/-! ## C4: missing root vs empty library -/

/-- C4 counterexample: scanning a nonexistent root returns the same empty
result as scanning a readable root with no descriptors — no fatal error,
no distinguishable outcome. -/
theorem c4_counterexample :
    scan missingRootFS = [] ∧ scan emptyRootFS = []
    ∧ scan missingRootFS = scan emptyRootFS := by decide

/-- C4 (amended): for a root whose enumeration yields nothing (missing or
unreadable), `scan` returns the empty-library result. -/
theorem c4_missing_root (nfos : List NfoEntry) :
    scan { rootExists := false, nfos := nfos } = scan emptyRootFS := rfl

/-! ## C3: descriptor classification -/

/-- C3 (amended): a descriptor file not named `tvshow.nfo` and not matching
the episode filename pattern is classified by its root tag: `movie` yields
a Movie entity, `episodedetails` is an episode descriptor, and any other
root tag — `tvshow` included — is skipped and yields no entity. -/
theorem c3_classification (f : NfoEntry) (root : Elem)
    (h1 : pyLower f.filename ≠ "tvshow.nfo")
    (h2 : ¬ (strStarts (pyLower f.filename) "s"
          && strEnds (pyLower f.filename) ".nfo") = true)
    (h3 : f.content = some root) :
    (root.tag = "movie" → classifyKind f = Kind.movie
      ∧ ∃ item, parse_nfo f = some item ∧ item.media_type = "movie")
    ∧ (root.tag = "episodedetails" → classifyKind f = Kind.episode)
    ∧ (root.tag ≠ "movie" → root.tag ≠ "episodedetails" →
      classifyKind f = Kind.skip) := by
  have hk : classifyKind f
      = (if root.tag = "movie" then Kind.movie
         else if root.tag = "episodedetails" then Kind.episode else Kind.skip) := by
    simp only [classifyKind, h3]
    rw [if_neg h1, if_neg h2]
  have hx : ∃ item, parse_nfo f = some item ∧ item.media_type = root.tag := by
    unfold parse_nfo
    rw [h3]
    exact ⟨_, rfl, rfl⟩
  refine ⟨fun ht => ⟨?_, ?_⟩, fun ht => ?_, fun ht1 ht2 => ?_⟩
  · rw [hk, if_pos ht]
  · obtain ⟨item, hi, hm⟩ := hx
    exact ⟨item, hi, hm.trans ht⟩
  · rw [hk, ht]
    decide
  · rw [hk, if_neg ht1, if_neg ht2]

/-- Witness for C3 at a concrete movie descriptor named `film.nfo`. -/
theorem c3_classification_witness :
    classifyKind c3movieFile = Kind.movie
    ∧ ∃ item, parse_nfo c3movieFile = some item ∧ item.media_type = "movie" :=
  (c3_classification c3movieFile c3movieRoot (by decide) (by decide) rfl).1 rfl

/-- C3 counterexample: a well-formed descriptor with root tag `tvshow` in
a file named `myshow.nfo` is dropped entirely — it yields no entity, where
the claim promises a Show entity. -/
theorem c3_counterexample :
    (c3file.content.map Elem.tag) = some "tvshow"
    ∧ pyLower c3file.filename ≠ "tvshow.nfo"
    ∧ (strStarts (pyLower c3file.filename) "s"
        && strEnds (pyLower c3file.filename) ".nfo") = false
    ∧ scan c3fs = [] := by decide

/-! ## C2: season aggregation -/

/-- The season-building loop is a `filterMap` over the sorted season
directories. -/
theorem foldl_season (showFiles : List String) : ∀ (l : List SubDir) (acc : List Season),
    l.foldl (fun acc sd =>
      match parseSeasonNum (pyLower sd.name) with
      | none => acc
      | some n =>
        let episode_count :=
          (sd.files.filter (fun f =>
            strEnds f.name ".nfo" && !(strStarts (pyLower f.name) "season"))).length
        acc ++ [{ season_number := n, episode_count := episode_count,
                  poster_path := find_season_poster showFiles sd n }]) acc
    = acc ++ l.filterMap (fun sd =>
        (parseSeasonNum (pyLower sd.name)).map (fun n =>
          ({ season_number := n,
             episode_count :=
               (sd.files.filter (fun f =>
                 strEnds f.name ".nfo" && !(strStarts (pyLower f.name) "season"))).length,
             poster_path := find_season_poster showFiles sd n } : Season))) := by
  intro l
  induction l with
  | nil => intro acc; simp
  | cons a l ih =>
    intro acc
    rw [List.foldl_cons]
    cases hp : parseSeasonNum (pyLower a.name) <;>
      simp [hp, ih, List.filterMap_cons, List.append_assoc]

/-- C2 (amended): the seasons sequence is sorted ascending by season
number, and its season numbers are a permutation of the parsed numbers of
every season-named subdirectory — one record per directory, so several
directories parsing to the same number yield several records. -/
theorem c2_seasons (showFiles : List String) (subdirs : List SubDir) :
    List.Sorted seasonLe (collect_season_info showFiles subdirs)
    ∧ ((collect_season_info showFiles subdirs).map Season.season_number).Perm
        ((subdirs.filter (fun d => strStarts (pyLower d.name) "season")).filterMap
          (fun d => parseSeasonNum (pyLower d.name))) := by
  constructor
  · simp only [collect_season_info]
    exact List.sorted_insertionSort seasonLe _
  · simp only [collect_season_info]
    rw [foldl_season]
    simp only [List.nil_append]
    refine ((List.perm_insertionSort seasonLe _).map Season.season_number).trans ?_
    rw [List.map_filterMap]
    have hfun : (fun sd => ((parseSeasonNum (pyLower sd.name)).map (fun n =>
        ({ season_number := n,
           episode_count :=
             (sd.files.filter (fun f =>
               strEnds f.name ".nfo" && !(strStarts (pyLower f.name) "season"))).length,
           poster_path := find_season_poster showFiles sd n } : Season))).map
          Season.season_number)
        = fun sd => parseSeasonNum (pyLower sd.name) := by
      funext sd
      cases hp : parseSeasonNum (pyLower sd.name) <;> simp [hp]
    rw [hfun]
    exact (List.perm_insertionSort subDirNameLe _).filterMap _

/-- C2 counterexample: `Season 1` and `Season 01` both parse to season 1
and both stay in the result — the numbers are not deduplicated. -/
theorem c2_counterexample :
    ((collect_season_info [] c2subdirs).map Season.season_number) = [1, 1]
    ∧ ¬ ((collect_season_info [] c2subdirs).map Season.season_number).Nodup := by
  decide

/-! ## C1: sorting by year -/

/-- C1 (amended): `sort_by_year` is a permutation of its input sorted by
the reversed key order — descending by year string with a missing year
read as `"0000"`, and equal year strings tie-broken by descending (not
ascending) sort key; the specification's three-entity example still comes
out `2001, 1999, missing`. -/
theorem c1_sort_by_year :
    (∀ items : List MediaItem,
      (sort_by_year items).Perm items
      ∧ List.Sorted yearRevLe (sort_by_year items))
    ∧ (sort_by_year [my2001, myNone, my1999]).map MediaItem.year
        = [some "2001", some "1999", none] := by
  refine ⟨fun items => ⟨List.perm_insertionSort yearRevLe items,
    List.sorted_insertionSort yearRevLe items⟩, ?_⟩
  decide

/-- C1 counterexample: two items with equal year `2000` and sort keys
`alpha < beta` come out in descending key order `Beta, Alpha`, refuting
the claimed ascending tie-break. -/
theorem c1_counterexample :
    pyOrStr cxAlpha.year "0000" = pyOrStr cxBeta.year "0000"
    ∧ pyStrLt (get_sort_key cxAlpha.title) (get_sort_key cxBeta.title) = true
    ∧ (sort_by_year [cxAlpha, cxBeta]).map MediaItem.title = ["Beta", "Alpha"] := by
  decide
